import Mathlib

/-
Shallow embedding of the hierarchical-memory LINE chatbot (src/app.py).

The program keeps, per conversation participant, a memory record consisting
of a short-term turn log (`history`), a long-term summary string (`summary`)
and a `turn_count`.  `ChatBot.generate_response` orchestrates one exchange:
it may summarize (when `turn_count >= MAX_TURNS`), assembles the outbound
prompt, calls the backend, appends the new exchange, enforces the hard cap
and persists the record.  `SQLiteManager.get_memory` reads a record back,
degrading a corrupt short-term log to an empty list.

Backend calls (`genai.GenerativeModel(...).generate_content`) are network
effects; their outcome is modelled as an explicit oracle input
(`ApiOutcome`): `success text` stands for a response whose `.text` is
`text`, `failure e` for the call raising an exception rendered as `e`.
Likewise `json.loads` is modelled as an explicit decoder argument at the
store boundary.
-/

/-- One chat message dict with keys "role" and "content"; both the stored
short-term history entries and the outbound prompt messages of src/app.py
use this shape. -/
structure Msg where
  role : String
  content : String
  deriving DecidableEq, Repr

/-- src/app.py line 25: `MAX_TURNS = 10`, the exchange count that triggers
summarization. -/
def MAX_TURNS : Nat := 10

/-- src/app.py line 27: `MAX_SHORT_TERM_MESSAGES = MAX_TURNS * 2`, the hard
cap on the short-term log length. -/
def MAX_SHORT_TERM_MESSAGES : Nat := MAX_TURNS * 2

/-- The memory record returned by `SQLiteManager.get_memory` and threaded
through `ChatBot.generate_response` (src/app.py lines 75-105, 212-300).
`turn_count` is a Python int, hence `Int`. -/
structure MemoryRecord where
  user_id : String
  history : List Msg
  summary : String
  turn_count : Int
  deriving DecidableEq, Repr

/-- Outcome of one backend (`generate_content`) call: the oracle input for
the network effect inside `ChatBot._call_gemini_api`. -/
inductive ApiOutcome where
  | success (text : String)
  | failure (err : String)
  deriving DecidableEq, Repr

/-- Python `str.strip()`: whitespace removed from both ends. -/
def pyStrip (s : String) : String :=
  String.mk (((s.data.dropWhile Char.isWhitespace).reverse.dropWhile Char.isWhitespace).reverse)

/-- `ChatBot._call_gemini_api`, src/app.py lines 197-209 (the try/except
around the backend call).  On success the code returns
`response.text.strip()`; on any exception `e` it catches it and returns the
f-string `"Gemini側でエラーが発生しました: " + str(e)` — it never raises to
its caller. -/
def callGeminiApi (outcome : ApiOutcome) : String :=
  match outcome with
  | ApiOutcome.success text => pyStrip text
  | ApiOutcome.failure e => "Gemini側でエラーが発生しました: " ++ e

/-- `ChatBot.__init__`, src/app.py lines 142-162: the fixed persona text. -/
def personalityPrompt : String :=
  "【キャラクター設定】あなたは「あだおか」または「あだT」というキャラクターのLINEのチャットAIです。1997年生まれ、岐阜県出身・在住の女性。本名あだちがモデル。MBTIは典型的なINFP。INFPがあたおか（頭おかしい）と言われることが、キャラクター名の由来。とある企業の安全健康管理室に勤め、孤立しがちな環境で真面目に社畜として働いている。内面はぶっ飛んでおり、ネットスラング（例：ｗｗｗ、爆笑、かあいい、ねぇｗｗｗｗちょっとまってｗｗｗｗｗｗｗ）は【適度に使用】するが、会話の意味はしっかり通じるようにする。\n\n【性格・話し方の特徴】\n- 軽快で自然な口調。皮肉やブラックジョークを交えたユーモアが特徴。\n- 会話中、必要な箇所だけにネットスラングを適度に混ぜる。\n- 「♪」や顔文字（＾＾、(´∀｀)など）は一切使用しない。\n\n【会話ルール】\n- 回答は1～2行の短文で返す。\n- ユーザーの発言に適切に反応し、自然な会話を展開する。\n\n【あだおかの語録（適度に使用）】\nねぇｗｗｗｗｗちょっとまってｗｗｗｗｗｗｗ\nわろた\nいただきました\nぱわぁ💪\nかあいい\nまって爆笑爆笑爆笑爆笑爆笑爆笑爆笑\n言われた通りやったけどできなかったよ！！無能っ！！\n会話の治安わるすぎて草\n今日も無理難題にこたえてて本当に偉い！！！！！！！！！！\n四肢爆裂"

/-- src/app.py lines 233-236: the system prompt of the summarization task. -/
def summarySystemPrompt : String :=
  "あなたは会話履歴を圧縮する専門家です。以下の過去の要約と直近の会話履歴を結合し、今後の文脈維持に役立つように簡潔に要約し、要約文のみを返答してください。"

/-- Python `str.capitalize()`: first character uppercased, the remaining
characters lowercased (src/app.py line 240 applies it to the role). -/
def pyCapitalize (s : String) : String :=
  match s.data with
  | [] => ""
  | c :: cs => String.mk (c.toUpper :: cs.map Char.toLower)

/-- src/app.py lines 239-241: the flattened rendering of the short-term
window sent to the summarizer, one `Role: content` line per message. -/
def summaryHistoryText (history : List Msg) : String :=
  String.intercalate "\n" (history.map (fun msg => pyCapitalize msg.role ++ ": " ++ msg.content))

/-- src/app.py lines 243-246: the two-message list sent for summarization. -/
def summaryMessages (summary : String) (history : List Msg) : List Msg :=
  [⟨"system", summarySystemPrompt⟩,
   ⟨"user", "【これまでの長期要約】:\n" ++ summary ++ "\n\n【直近の会話履歴】:\n"
      ++ summaryHistoryText history⟩]

/-- src/app.py line 217: `model_name = "gemini-2.5-pro" if version == "1.5"
else "gemini-2.5-flash"` (the comment at line 365 calls "1.5" the paid
variant). -/
def modelName (version : String) : String :=
  if version == "1.5" then "gemini-2.5-pro" else "gemini-2.5-flash"

/-- src/app.py lines 260-279 (step 3 of `generate_response`): the outbound
message list — system message (persona, plus the long-term summary section
when `summary` is truthy i.e. non-empty), then the short-term history with
roles mapped onto the backend vocabulary (`"user"` stays, anything else
becomes `"model"`), then the incoming user message. -/
def buildMessages (summary : String) (history : List Msg) (user_message : String) : List Msg :=
  let combined_system_prompt :=
    if summary ≠ "" then
      personalityPrompt ++ "\n\n【これまでの会話の長期要約】: " ++ summary
    else
      personalityPrompt
  ([⟨"system", combined_system_prompt⟩]
      ++ history.map (fun msg => ⟨if msg.role == "user" then "user" else "model", msg.content⟩))
    ++ [⟨"user", user_message⟩]

/-- Everything one call of `ChatBot.generate_response` produces: the record
passed to `save_memory`, the returned reply, the prompt message list sent to
the backend, and the model name chosen. -/
structure ExchangeResult where
  record : MemoryRecord
  reply : String
  sentMessages : List Msg
  modelUsed : String
  deriving DecidableEq, Repr

/-- `ChatBot.generate_response`, src/app.py lines 212-300, parametrized by
the two module constants (`maxTurns` for `MAX_TURNS`, `maxShort` for
`MAX_SHORT_TERM_MESSAGES`; the source instantiates them at 10 and 20) and by
the oracle outcomes of the (at most two) backend calls.  The truncation
`history[-maxShort:]` is rendered as a drop of the excess prefix, which is
what the slice does for the positive constant the source uses. -/
def generateResponseWith (maxTurns maxShort : Nat) (version : String)
    (summaryOutcome replyOutcome : ApiOutcome)
    (memory : MemoryRecord) (user_message : String) : ExchangeResult :=
  let model_name := modelName version
  -- step 2: summarization check and execution (lines 228-257); on the
  -- branch the code replaces summary with the (stripped) call result and
  -- resets history and turn_count
  let new_summary_text := callGeminiApi summaryOutcome
  let summary1 :=
    if memory.turn_count ≥ (maxTurns : Int) then pyStrip new_summary_text else memory.summary
  let history1 :=
    if memory.turn_count ≥ (maxTurns : Int) then ([] : List Msg) else memory.history
  let turn_count1 :=
    if memory.turn_count ≥ (maxTurns : Int) then (0 : Int) else memory.turn_count
  -- step 3: prompt assembly (lines 260-279)
  let messages := buildMessages summary1 history1 user_message
  -- step 4: reply call (line 282)
  let ai_response := callGeminiApi replyOutcome
  -- step 5: memory update (lines 284-298)
  let history2 := history1 ++ [⟨"user", user_message⟩, ⟨"assistant", ai_response⟩]
  let history3 :=
    if history2.length > maxShort then history2.drop (history2.length - maxShort) else history2
  let turn_count2 := turn_count1 + 1
  ⟨⟨memory.user_id, history3, summary1, turn_count2⟩, ai_response, messages, model_name⟩

/-- `ChatBot.generate_response` at the source's constants. -/
def generate_response (version : String) (summaryOutcome replyOutcome : ApiOutcome)
    (memory : MemoryRecord) (user_message : String) : ExchangeResult :=
  generateResponseWith MAX_TURNS MAX_SHORT_TERM_MESSAGES version
    summaryOutcome replyOutcome memory user_message

/-- One row of the `user_memory` table: `history` is the stored JSON text,
`summary` and `turn_count` the other columns (src/app.py lines 63-71). -/
structure DbRow where
  history : String
  summary : String
  turn_count : Int
  deriving DecidableEq, Repr

/-- The default record `get_memory` returns for an unknown id
(src/app.py lines 99-105). -/
def initialMemory (user_id : String) : MemoryRecord :=
  ⟨user_id, [], "", 0⟩

/-- `SQLiteManager.get_memory`, src/app.py lines 75-105.  `table` is the
`user_memory` table as a map from user id to row; `dec` stands for
`json.loads` on the stored history text, `none` meaning a
`json.JSONDecodeError` (in which case the code falls back to `[]`). -/
def get_memory (dec : String → Option (List Msg)) (table : String → Option DbRow)
    (user_id : String) : MemoryRecord :=
  match table user_id with
  | some row =>
    let history_list :=
      match dec row.history with
      | some l => l
      | none => []
    ⟨user_id, history_list, row.summary, row.turn_count⟩
  | none => ⟨user_id, [], "", 0⟩

/-- The caller-visible data of one webhook exchange: the oracle outcomes of
the two potential backend calls and the incoming user message. -/
structure Exchange where
  summaryOutcome : ApiOutcome
  replyOutcome : ApiOutcome
  message : String
  deriving DecidableEq, Repr

/-- Run a sequence of exchanges for one participant, threading the persisted
record (each exchange is a `generate_response` followed by `save_memory` and
a re-`get_memory` of the same data). -/
def runExchangesWith (maxTurns maxShort : Nat) (version : String) :
    List Exchange → MemoryRecord → MemoryRecord
  | [], memory => memory
  | e :: rest, memory =>
    runExchangesWith maxTurns maxShort version rest
      (generateResponseWith maxTurns maxShort version
        e.summaryOutcome e.replyOutcome memory e.message).record

/-- `runExchangesWith` at the source's constants. -/
def runExchanges (version : String) (exs : List Exchange) (memory : MemoryRecord) :
    MemoryRecord :=
  runExchangesWith MAX_TURNS MAX_SHORT_TERM_MESSAGES version exs memory

/-- Decides that no exchange of the run hits the summarization branch, i.e.
every pre-exchange `turn_count` is below `MAX_TURNS`. -/
def noSummarizeRun (version : String) : List Exchange → MemoryRecord → Bool
  | [], _ => true
  | e :: rest, memory =>
    decide (memory.turn_count < (MAX_TURNS : Int)) &&
      noSummarizeRun version rest
        (generate_response version e.summaryOutcome e.replyOutcome memory e.message).record

/-- The chronological turn sequence a list of exchanges generates: per
exchange the user message then the assistant reply. -/
def turnsOf : List Exchange → List Msg
  | [] => []
  | e :: rest =>
    (Msg.mk "user" e.message) :: (Msg.mk "assistant" (callGeminiApi e.replyOutcome)) :: turnsOf rest

/-- The last `n` entries of a list (Python `l[-n:]` for positive `n`). -/
def lastN {α : Type} (n : Nat) (l : List α) : List α :=
  l.drop (l.length - n)

/-- Memory records the program can load for a participant: the fresh default
record, any record persisted by a completed exchange, and any persisted
record read back with its short-term log degraded to `[]` by a JSON decode
failure. -/
inductive ReachableMemory : MemoryRecord → Prop where
  | init (user_id : String) : ReachableMemory (initialMemory user_id)
  | exchange (version : String) (so ro : ApiOutcome) (m : String) {r : MemoryRecord} :
      ReachableMemory r → ReachableMemory (generate_response version so ro r m).record
  | decodeDrop {r : MemoryRecord} : ReachableMemory r →
      ReachableMemory ⟨r.user_id, [], r.summary, r.turn_count⟩

/-! ### Claim theorems -/

/-- The failing input of C1: a record at the summarization threshold
(`turn_count = 10`) whose summarization backend call raises `"Timeout"`. -/
def c1Memory : MemoryRecord :=
  ⟨"u1", [⟨"user", "hello"⟩, ⟨"assistant", "hi"⟩], "prior summary", 10⟩

/-- The exchange C1 evaluates: summarization call fails, reply call
returns "ok". -/
def c1Result : ExchangeResult :=
  generate_response "2.0" (ApiOutcome.failure "Timeout") (ApiOutcome.success "ok")
    c1Memory "hey"

/-- C1: the claim (on summarization failure, `turn_count` and `short_term`
are left unchanged, `long_term_summary` is not replaced, and the threshold
is re-evaluated next exchange) is violated by the code: `_call_gemini_api`
swallows the exception and returns the error text as a string, which
`generate_response` installs as the new long-term summary while clearing
the short-term window and resetting `turn_count`; afterwards
`turn_count = 1 < MAX_TURNS`, so the failed summarization is consumed, not
retried.  The exchange does still produce a reply. -/
theorem summarization_failure_destroys_memory :
    c1Result.record.turn_count = 1
    ∧ c1Result.record.history = [⟨"user", "hey"⟩, ⟨"assistant", "ok"⟩]
    ∧ c1Result.record.summary = "Gemini側でエラーが発生しました: Timeout"
    ∧ c1Result.record.history ≠ c1Memory.history
    ∧ c1Result.record.summary ≠ c1Memory.summary
    ∧ c1Result.record.turn_count ≠ c1Memory.turn_count
    ∧ c1Result.record.turn_count < (MAX_TURNS : Int)
    ∧ c1Result.reply = "ok" := by decide

/-- C2 counterexample: the fallback string of `_call_gemini_api` is not the
same for every error on the same path, and it embeds the raw error text. -/
theorem generator_fallback_not_deterministic :
    callGeminiApi (ApiOutcome.failure "timeout")
        ≠ callGeminiApi (ApiOutcome.failure "quota exceeded")
    ∧ callGeminiApi (ApiOutcome.failure "timeout")
        = "Gemini側でエラーが発生しました: timeout" := by decide

/-- C2 (amended): on any backend error the generation function returns,
without raising, a non-empty fallback string — but that string is the fixed
Japanese prefix followed by the raw error text, hence differs per error and
does expose backend error text. -/
theorem generator_fallback_amended (e : String) :
    callGeminiApi (ApiOutcome.failure e) = "Gemini側でエラーが発生しました: " ++ e
    ∧ callGeminiApi (ApiOutcome.failure e) ≠ "" := by
  refine ⟨rfl, ?_⟩
  intro h
  simp only [callGeminiApi] at h
  have hlen := congrArg String.length h
  rw [String.length_append] at hlen
  have hpos : 0 < ("Gemini側でエラーが発生しました: " : String).length := by decide
  have hz : ("" : String).length = 0 := by decide
  omega

/-- C2 witness: the amended theorem at the concrete error "timeout". -/
theorem generator_fallback_amended_witness :
    callGeminiApi (ApiOutcome.failure "timeout")
        = "Gemini側でエラーが発生しました: " ++ "timeout"
    ∧ callGeminiApi (ApiOutcome.failure "timeout") ≠ "" :=
  generator_fallback_amended "timeout"

/-- C8: `get_memory` on a participant with no stored row returns the fresh
default record (empty history, empty summary, turn_count 0) without
failing, and a second read with no intervening save returns the same. -/
theorem get_missing_participant (dec : String → Option (List Msg))
    (table : String → Option DbRow) (uid : String) (h : table uid = none) :
    get_memory dec table uid = initialMemory uid
    ∧ get_memory dec table uid = get_memory dec table uid := by
  refine ⟨?_, rfl⟩
  simp [get_memory, h, initialMemory]

/-- C8 witness: the empty table at participant "u9". -/
theorem get_missing_participant_witness :
    get_memory (fun _ => none) (fun _ => none) "u9" = initialMemory "u9"
    ∧ get_memory (fun _ => none) (fun _ => none) "u9"
        = get_memory (fun _ => none) (fun _ => none) "u9" :=
  get_missing_participant (fun _ => none) (fun _ => none) "u9" rfl

/-- C9: when the stored short-term log fails to deserialize, `get_memory`
still succeeds and returns the record with `history` degraded to `[]` while
the stored summary and turn_count are returned unchanged. -/
theorem get_corrupt_history_degrades (dec : String → Option (List Msg))
    (table : String → Option DbRow) (uid : String) (row : DbRow)
    (hrow : table uid = some row) (hdec : dec row.history = none) :
    get_memory dec table uid = ⟨uid, [], row.summary, row.turn_count⟩ := by
  simp [get_memory, hrow, hdec]

/-- C9 witness: a row whose history text the decoder rejects. -/
theorem get_corrupt_history_degrades_witness :
    get_memory (fun _ => none) (fun _ => some ⟨"not json", "old summary", 7⟩) "u1"
      = ⟨"u1", [], "old summary", 7⟩ :=
  get_corrupt_history_degrades (fun _ => none)
    (fun _ => some ⟨"not json", "old summary", 7⟩) "u1" ⟨"not json", "old summary", 7⟩ rfl rfl

/-- C6: model-variant selection is a pure function of the caller's version
flag ("1.5" — the paid flag — selects the stronger model, anything else the
default), and the variant does not affect the memory algorithm: with the
same backend outcomes, two exchanges differing only in the version produce
identical persisted records (and replies). -/
theorem model_variant_orthogonal :
    modelName "1.5" = "gemini-2.5-pro"
    ∧ (∀ v : String, v ≠ "1.5" → modelName v = "gemini-2.5-flash")
    ∧ (∀ (v₁ v₂ : String) (so ro : ApiOutcome) (r : MemoryRecord) (m : String),
        (generate_response v₁ so ro r m).record = (generate_response v₂ so ro r m).record
        ∧ (generate_response v₁ so ro r m).reply = (generate_response v₂ so ro r m).reply
        ∧ (generate_response v₁ so ro r m).modelUsed = modelName v₁) := by
  refine ⟨rfl, ?_, ?_⟩
  · intro v hv
    simp [modelName, hv]
  · intro v₁ v₂ so ro r m
    exact ⟨rfl, rfl, rfl⟩

/-- C6 witness: the default flag "2.0" and the paid flag "1.5" give the
stated models, and one concrete exchange persists the same record under
both. -/
theorem model_variant_orthogonal_witness :
    modelName "2.0" = "gemini-2.5-flash"
    ∧ (generate_response "2.0" (ApiOutcome.success "s") (ApiOutcome.success "r")
          (initialMemory "u1") "hi").record
        = (generate_response "1.5" (ApiOutcome.success "s") (ApiOutcome.success "r")
          (initialMemory "u1") "hi").record :=
  ⟨model_variant_orthogonal.2.1 "2.0" (by decide),
   (model_variant_orthogonal.2.2 "2.0" "1.5" (ApiOutcome.success "s") (ApiOutcome.success "r")
      (initialMemory "u1") "hi").1⟩

/-- C7: the outbound message list is: one system message (persona text with
the long-term summary section appended exactly when the summary is
non-empty), then one message per short-term turn in order (role "user"
stays "user", role "assistant" becomes the backend's "model"), then one
final "user" message with the incoming text. -/
theorem prompt_assembly (summary : String) (history : List Msg) (m : String) :
    (buildMessages summary history m).length = history.length + 2
    ∧ (buildMessages summary history m).head? =
        some ⟨"system",
          if summary = "" then personalityPrompt
          else personalityPrompt ++ "\n\n【これまでの会話の長期要約】: " ++ summary⟩
    ∧ (∀ (i : Nat) (h : i < history.length),
        (history[i].role = "user" →
          (buildMessages summary history m)[i + 1]? = some ⟨"user", history[i].content⟩)
        ∧ (history[i].role = "assistant" →
          (buildMessages summary history m)[i + 1]? = some ⟨"model", history[i].content⟩))
    ∧ (buildMessages summary history m).getLast? = some (Msg.mk "user" m) := by
  refine ⟨?_, ?_, ?_, ?_⟩
  · simp [buildMessages]
  · by_cases hs : summary = "" <;> simp [buildMessages, hs]
  · intro i h
    have hmsg : (buildMessages summary history m)[i + 1]? =
        some ⟨if history[i].role == "user" then "user" else "model", history[i].content⟩ := by
      simp only [buildMessages, List.singleton_append, List.cons_append,
        List.nil_append, List.getElem?_cons_succ]
      rw [List.getElem?_append, if_pos (by simp [List.length_map]; omega),
        List.getElem?_map, List.getElem?_eq_getElem h]
      rfl
    constructor
    · intro hrole
      rw [hmsg, hrole]
      rfl
    · intro hrole
      rw [hmsg, hrole]
      rfl
  · simp only [buildMessages]
    rw [List.getLast?_concat]

/-- C7 witness: a two-turn history with a non-empty summary. -/
theorem prompt_assembly_witness :
    (buildMessages "S" [⟨"user", "q"⟩, ⟨"assistant", "a"⟩] "hi")[0 + 1]?
        = some ⟨"user", "q"⟩
    ∧ (buildMessages "S" [⟨"user", "q"⟩, ⟨"assistant", "a"⟩] "hi")[1 + 1]?
        = some ⟨"model", "a"⟩
    ∧ (buildMessages "S" [⟨"user", "q"⟩, ⟨"assistant", "a"⟩] "hi").getLast?
        = some ⟨"user", "hi"⟩ :=
  ⟨((prompt_assembly "S" [⟨"user", "q"⟩, ⟨"assistant", "a"⟩] "hi").2.2.1 0 (by decide)).1 rfl,
   ((prompt_assembly "S" [⟨"user", "q"⟩, ⟨"assistant", "a"⟩] "hi").2.2.1 1 (by decide)).2 rfl,
   (prompt_assembly "S" [⟨"user", "q"⟩, ⟨"assistant", "a"⟩] "hi").2.2.2⟩

/-- Helper: a non-summarizing exchange whose appended window stays within
the cap just appends the two new turns, keeps the summary, and increments
`turn_count`. -/
theorem step_no_summarize_no_trunc (v : String) (so ro : ApiOutcome) (r : MemoryRecord)
    (m : String)
    (h1 : r.turn_count < (MAX_TURNS : Int))
    (h2 : r.history.length + 2 ≤ MAX_SHORT_TERM_MESSAGES) :
    (generate_response v so ro r m).record
      = ⟨r.user_id, r.history ++ [(Msg.mk "user" m), (Msg.mk "assistant" (callGeminiApi ro))],
          r.summary, r.turn_count + 1⟩ := by
  have h1n : ¬ ((MAX_TURNS : Int) ≤ r.turn_count) := not_le.mpr h1
  have h2n : ¬ (MAX_SHORT_TERM_MESSAGES < r.history.length + 2) := by omega
  simp [generate_response, generateResponseWith, h1n, h2n]

/-- Helper: `runExchanges` unfolds one exchange at a time. -/
theorem runExchanges_cons (v : String) (e : Exchange) (exs : List Exchange)
    (r : MemoryRecord) :
    runExchanges v (e :: exs) r
      = runExchanges v exs
          (generate_response v e.summaryOutcome e.replyOutcome r e.message).record := rfl

/-- C4: along any run of exchanges in which no summarization occurs, the
invariant `len(short_term) = 2 * turn_count` is preserved: if the starting
record satisfies it, it holds again after each exchange (stated for the
record after the first `exs` of a longer non-summarizing run
`exs ++ rest`). -/
theorem turn_count_len_invariant (v : String) (exs rest : List Exchange) (r : MemoryRecord)
    (hinv : (r.history.length : Int) = 2 * r.turn_count)
    (hrun : noSummarizeRun v (exs ++ rest) r = true) :
    ((runExchanges v exs r).history.length : Int) = 2 * (runExchanges v exs r).turn_count := by
  induction exs generalizing rest r with
  | nil => simpa [runExchanges, runExchangesWith] using hinv
  | cons e exs ih =>
    rw [List.cons_append] at hrun
    simp only [noSummarizeRun, Bool.and_eq_true, decide_eq_true_eq] at hrun
    obtain ⟨hlt, hrest⟩ := hrun
    have h2 : r.history.length + 2 ≤ MAX_SHORT_TERM_MESSAGES := by
      simp only [MAX_SHORT_TERM_MESSAGES, MAX_TURNS] at hlt ⊢
      omega
    have hstep := step_no_summarize_no_trunc v e.summaryOutcome e.replyOutcome r e.message hlt h2
    rw [runExchanges_cons]
    apply ih rest
    · rw [hstep]
      simp only [List.length_append, List.length_cons, List.length_nil]
      push_cast
      omega
    · exact hrest

/-- C4 witness: one non-summarizing exchange from the fresh record. -/
theorem turn_count_len_invariant_witness :
    ((runExchanges "2.0" [⟨ApiOutcome.success "s", ApiOutcome.success "r", "hi"⟩]
          (initialMemory "u1")).history.length : Int)
      = 2 * (runExchanges "2.0" [⟨ApiOutcome.success "s", ApiOutcome.success "r", "hi"⟩]
          (initialMemory "u1")).turn_count :=
  turn_count_len_invariant "2.0" [⟨ApiOutcome.success "s", ApiOutcome.success "r", "hi"⟩] []
    (initialMemory "u1") (by decide) (by decide)

/-- Helper: an exchange that begins at or above the threshold takes the
summarization branch: the whole result of `generate_response` written out. -/
theorem step_summarize (v : String) (so ro : ApiOutcome) (r : MemoryRecord) (m : String)
    (htc : (MAX_TURNS : Int) ≤ r.turn_count) :
    generate_response v so ro r m
      = ⟨⟨r.user_id, [(Msg.mk "user" m), (Msg.mk "assistant" (callGeminiApi ro))],
            pyStrip (callGeminiApi so), 1⟩,
          callGeminiApi ro,
          buildMessages (pyStrip (callGeminiApi so)) [] m,
          modelName v⟩ := by
  have hms : ¬ (MAX_SHORT_TERM_MESSAGES < 2) := by
    simp [MAX_SHORT_TERM_MESSAGES, MAX_TURNS]
  simp [generate_response, generateResponseWith, htc, hms]

/-- C3: an exchange that begins at or above the threshold summarizes before
prompt assembly (the outbound prompt is built from the new summary and an
emptied window); with the summarization call succeeding and its stripped
result non-empty and different from the old summary, the persisted record
has `turn_count = 1`, exactly this exchange's two turns, and the new text
replacing (not concatenated to) the old summary. -/
theorem summarization_trigger (r : MemoryRecord) (v : String) (s : String) (ro : ApiOutcome)
    (m : String)
    (htc : (MAX_TURNS : Int) ≤ r.turn_count)
    (hne : pyStrip (callGeminiApi (ApiOutcome.success s)) ≠ "")
    (hdiff : pyStrip (callGeminiApi (ApiOutcome.success s)) ≠ r.summary) :
    (generate_response v (ApiOutcome.success s) ro r m).record.turn_count = 1
    ∧ (generate_response v (ApiOutcome.success s) ro r m).record.history
        = [(Msg.mk "user" m), (Msg.mk "assistant" (callGeminiApi ro))]
    ∧ (generate_response v (ApiOutcome.success s) ro r m).record.summary
        = pyStrip (callGeminiApi (ApiOutcome.success s))
    ∧ (generate_response v (ApiOutcome.success s) ro r m).record.summary ≠ ""
    ∧ (generate_response v (ApiOutcome.success s) ro r m).record.summary ≠ r.summary
    ∧ (generate_response v (ApiOutcome.success s) ro r m).sentMessages
        = buildMessages (pyStrip (callGeminiApi (ApiOutcome.success s))) [] m := by
  have hstep := step_summarize v (ApiOutcome.success s) ro r m htc
  refine ⟨?_, ?_, ?_, ?_, ?_, ?_⟩ <;> simp [hstep, hne, hdiff]

/-- C3 witness: a record at the threshold with a succeeding summarization
call. -/
theorem summarization_trigger_witness :
    (generate_response "2.0" (ApiOutcome.success "new summary") (ApiOutcome.success "fine")
          ⟨"u1", [⟨"user", "a"⟩, ⟨"assistant", "b"⟩], "old", 10⟩ "hello").record.turn_count = 1
    ∧ (generate_response "2.0" (ApiOutcome.success "new summary") (ApiOutcome.success "fine")
          ⟨"u1", [⟨"user", "a"⟩, ⟨"assistant", "b"⟩], "old", 10⟩ "hello").record.history
        = [⟨"user", "hello"⟩, ⟨"assistant", callGeminiApi (ApiOutcome.success "fine")⟩]
    ∧ (generate_response "2.0" (ApiOutcome.success "new summary") (ApiOutcome.success "fine")
          ⟨"u1", [⟨"user", "a"⟩, ⟨"assistant", "b"⟩], "old", 10⟩ "hello").record.summary
        = pyStrip (callGeminiApi (ApiOutcome.success "new summary")) :=
  have h := summarization_trigger ⟨"u1", [⟨"user", "a"⟩, ⟨"assistant", "b"⟩], "old", 10⟩
    "2.0" "new summary" (ApiOutcome.success "fine") "hello"
    (by decide) (by decide) (by decide)
  ⟨h.1, h.2.1, h.2.2.1⟩

/-- Helper: re-taking the last `n` after appending equals taking the last
`n` of the full concatenation. -/
theorem lastN_append_lastN {α : Type} (n : Nat) (x b : List α) :
    lastN n (lastN n x ++ b) = lastN n (x ++ b) := by
  simp only [lastN, List.length_append, List.length_drop]
  rw [List.drop_append_eq_append_drop, List.drop_append_eq_append_drop, List.drop_drop]
  congr 1
  · congr 1
    omega
  · congr 1
    rw [List.length_drop]
    omega

/-- Helper: a non-summarizing exchange of the parametrized step leaves the
summary and user id, increments `turn_count`, and sets the short-term log to
the last `maxS` entries of the appended window (with or without the cap
firing). -/
theorem stepWith_no_summarize (maxT maxS : Nat) (v : String) (so ro : ApiOutcome)
    (r : MemoryRecord) (m : String) (hlt : r.turn_count < (maxT : Int)) :
    (generateResponseWith maxT maxS v so ro r m).record.history
        = lastN maxS (r.history ++ [(Msg.mk "user" m), (Msg.mk "assistant" (callGeminiApi ro))])
    ∧ (generateResponseWith maxT maxS v so ro r m).record.turn_count = r.turn_count + 1
    ∧ (generateResponseWith maxT maxS v so ro r m).record.summary = r.summary
    ∧ (generateResponseWith maxT maxS v so ro r m).record.user_id = r.user_id := by
  have hn : ¬ ((maxT : Int) ≤ r.turn_count) := not_le.mpr hlt
  refine ⟨?_, by simp [generateResponseWith, hn], by simp [generateResponseWith, hn],
    by simp [generateResponseWith, hn]⟩
  have hform : (generateResponseWith maxT maxS v so ro r m).record.history
      = (if (r.history ++ [(Msg.mk "user" m), (Msg.mk "assistant" (callGeminiApi ro))]).length > maxS then
          (r.history ++ [(Msg.mk "user" m), (Msg.mk "assistant" (callGeminiApi ro))]).drop
            ((r.history ++ [(Msg.mk "user" m), (Msg.mk "assistant" (callGeminiApi ro))]).length - maxS)
        else
          r.history ++ [(Msg.mk "user" m), (Msg.mk "assistant" (callGeminiApi ro))]) := by
    simp [generateResponseWith, hn]
  rw [hform, lastN]
  by_cases hc : (r.history ++ [(Msg.mk "user" m), (Msg.mk "assistant" (callGeminiApi ro))]).length > maxS
  · rw [if_pos hc]
  · rw [if_neg hc]
    have hz : (r.history ++ [(Msg.mk "user" m), (Msg.mk "assistant" (callGeminiApi ro))]).length - maxS
        = 0 := by omega
    rw [hz]
    exact (List.drop_zero _).symm

/-- Helper: `turnsOf` produces two turns per exchange. -/
theorem turnsOf_length (exs : List Exchange) : (turnsOf exs).length = 2 * exs.length := by
  induction exs with
  | nil => rfl
  | cons e exs ih => simp [turnsOf, ih]; omega

/-- Helper: along a run whose exchanges all stay below the summarization
threshold `maxT`, the final short-term log is the last
`MAX_SHORT_TERM_MESSAGES` of all turns ever produced, and `turn_count`
advances by the number of exchanges. -/
theorem runWith_no_summarize (maxT : Nat) (v : String) (exs : List Exchange) :
    ∀ (r : MemoryRecord) (h0 : List Msg),
      r.history = lastN MAX_SHORT_TERM_MESSAGES h0 →
      r.turn_count + exs.length ≤ (maxT : Int) →
      (runExchangesWith maxT MAX_SHORT_TERM_MESSAGES v exs r).history
          = lastN MAX_SHORT_TERM_MESSAGES (h0 ++ turnsOf exs)
      ∧ (runExchangesWith maxT MAX_SHORT_TERM_MESSAGES v exs r).turn_count
          = r.turn_count + exs.length := by
  induction exs with
  | nil =>
    intro r h0 hh _
    simp [runExchangesWith, turnsOf, hh]
  | cons e exs ih =>
    intro r h0 hh hlen
    have hlt : r.turn_count < (maxT : Int) := by
      simp only [List.length_cons] at hlen
      push_cast at hlen
      omega
    have hstep := stepWith_no_summarize maxT MAX_SHORT_TERM_MESSAGES v
      e.summaryOutcome e.replyOutcome r e.message hlt
    have hh2 : (generateResponseWith maxT MAX_SHORT_TERM_MESSAGES v
          e.summaryOutcome e.replyOutcome r e.message).record.history
        = lastN MAX_SHORT_TERM_MESSAGES
            (h0 ++ [(Msg.mk "user" e.message), (Msg.mk "assistant" (callGeminiApi e.replyOutcome))]) := by
      rw [hstep.1, hh, lastN_append_lastN]
    have hlen2 : (generateResponseWith maxT MAX_SHORT_TERM_MESSAGES v
          e.summaryOutcome e.replyOutcome r e.message).record.turn_count + exs.length
        ≤ (maxT : Int) := by
      rw [hstep.2.1]
      simp only [List.length_cons] at hlen
      push_cast at hlen ⊢
      omega
    have ih2 := ih _ _ hh2 hlen2
    refine ⟨?_, ?_⟩
    · rw [show runExchangesWith maxT MAX_SHORT_TERM_MESSAGES v (e :: exs) r
          = runExchangesWith maxT MAX_SHORT_TERM_MESSAGES v exs
              (generateResponseWith maxT MAX_SHORT_TERM_MESSAGES v
                e.summaryOutcome e.replyOutcome r e.message).record from rfl]
      rw [ih2.1, List.append_assoc]
      rfl
    · rw [show runExchangesWith maxT MAX_SHORT_TERM_MESSAGES v (e :: exs) r
          = runExchangesWith maxT MAX_SHORT_TERM_MESSAGES v exs
              (generateResponseWith maxT MAX_SHORT_TERM_MESSAGES v
                e.summaryOutcome e.replyOutcome r e.message).record from rfl]
      rw [ih2.2, hstep.2.1]
      simp only [List.length_cons]
      push_cast
      omega

/-- C5: (a) at the source's constants, a non-summarizing exchange whose
appended window exceeds the cap truncates the log to exactly the most
recent `MAX_SHORT_TERM_MESSAGES` entries, oldest dropped first, order kept;
(b) with `MAX_SHORT_TERM_MESSAGES = 20` and summarization disabled (any
threshold the 15 exchanges never reach), after 15 exchanges from a fresh
record the log has length exactly 20 and holds exactly the most recent 20
turns in chronological order. -/
theorem cap_enforcement :
    (∀ (v : String) (so ro : ApiOutcome) (r : MemoryRecord) (m : String),
        r.turn_count < (MAX_TURNS : Int) →
        MAX_SHORT_TERM_MESSAGES < r.history.length + 2 →
        (generate_response v so ro r m).record.history
            = (r.history ++ [(Msg.mk "user" m), (Msg.mk "assistant" (callGeminiApi ro))]).drop
                (r.history.length + 2 - MAX_SHORT_TERM_MESSAGES)
        ∧ (generate_response v so ro r m).record.history.length = MAX_SHORT_TERM_MESSAGES)
    ∧ (∀ (maxT : Nat) (v : String) (exs : List Exchange) (uid : String),
        exs.length = 15 → 15 ≤ maxT →
        (runExchangesWith maxT MAX_SHORT_TERM_MESSAGES v exs (initialMemory uid)).history
            = lastN MAX_SHORT_TERM_MESSAGES (turnsOf exs)
        ∧ (runExchangesWith maxT MAX_SHORT_TERM_MESSAGES v exs
              (initialMemory uid)).history.length = MAX_SHORT_TERM_MESSAGES) := by
  constructor
  · intro v so ro r m hlt hcap
    have hstep := stepWith_no_summarize MAX_TURNS MAX_SHORT_TERM_MESSAGES v so ro r m hlt
    have hh : (generate_response v so ro r m).record.history
        = lastN MAX_SHORT_TERM_MESSAGES
            (r.history ++ [(Msg.mk "user" m), (Msg.mk "assistant" (callGeminiApi ro))]) := hstep.1
    constructor
    · rw [hh]
      simp only [lastN, List.length_append, List.length_cons, List.length_nil]
    · rw [hh]
      simp only [lastN, List.length_drop, List.length_append, List.length_cons,
        List.length_nil]
      omega
  · intro maxT v exs uid hlen15 hmaxT
    have hrun := runWith_no_summarize maxT v exs (initialMemory uid) []
      (by simp [initialMemory, lastN]) (by simp [initialMemory, hlen15]; omega)
    constructor
    · rw [hrun.1, List.nil_append]
    · rw [hrun.1, List.nil_append]
      simp only [lastN, List.length_drop, turnsOf_length, hlen15]
      simp [MAX_SHORT_TERM_MESSAGES, MAX_TURNS]

/-- C5 witness inputs: a 19-entry log below the threshold, and 15 concrete
exchanges. -/
def c5Memory : MemoryRecord := ⟨"u1", List.replicate 19 ⟨"user", "x"⟩, "", 5⟩

/-- C5 witness inputs: 15 identical exchanges. -/
def c5Exchanges : List Exchange :=
  List.replicate 15 ⟨ApiOutcome.success "s", ApiOutcome.success "r", "m"⟩

/-- C5 witness: both parts at concrete inputs. -/
theorem cap_enforcement_witness :
    ((generate_response "2.0" (ApiOutcome.success "s") (ApiOutcome.success "r")
          c5Memory "hi").record.history
        = (c5Memory.history ++ [(Msg.mk "user" "hi"),
              (Msg.mk "assistant" (callGeminiApi (ApiOutcome.success "r")))]).drop
            (c5Memory.history.length + 2 - MAX_SHORT_TERM_MESSAGES)
      ∧ (generate_response "2.0" (ApiOutcome.success "s") (ApiOutcome.success "r")
            c5Memory "hi").record.history.length = MAX_SHORT_TERM_MESSAGES)
    ∧ ((runExchangesWith 15 MAX_SHORT_TERM_MESSAGES "2.0" c5Exchanges
            (initialMemory "u1")).history
          = lastN MAX_SHORT_TERM_MESSAGES (turnsOf c5Exchanges)
      ∧ (runExchangesWith 15 MAX_SHORT_TERM_MESSAGES "2.0" c5Exchanges
            (initialMemory "u1")).history.length = MAX_SHORT_TERM_MESSAGES) :=
  ⟨cap_enforcement.1 "2.0" (ApiOutcome.success "s") (ApiOutcome.success "r") c5Memory "hi"
      (by decide) (by decide),
   cap_enforcement.2 15 "2.0" c5Exchanges "u1" (by decide) (by decide)⟩

/-- The inductive persistence invariant: `turn_count` lies in
`[0, MAX_TURNS]` and the log never exceeds `2 * turn_count` entries. -/
def MemInv (r : MemoryRecord) : Prop :=
  0 ≤ r.turn_count ∧ r.turn_count ≤ (MAX_TURNS : Int)
    ∧ (r.history.length : Int) ≤ 2 * r.turn_count

/-- Helper: one exchange preserves `MemInv`. -/
theorem memInv_step (v : String) (so ro : ApiOutcome) (r : MemoryRecord) (m : String)
    (h : MemInv r) : MemInv (generate_response v so ro r m).record := by
  obtain ⟨h0, h1, h2⟩ := h
  by_cases hc : (MAX_TURNS : Int) ≤ r.turn_count
  · rw [step_summarize v so ro r m hc]
    refine ⟨by norm_num, by norm_num [MAX_TURNS], by norm_num⟩
  · have hlt : r.turn_count < (MAX_TURNS : Int) := not_le.mp hc
    have hcap : r.history.length + 2 ≤ MAX_SHORT_TERM_MESSAGES := by
      have h2c := h2
      have hltc := hlt
      simp only [MAX_SHORT_TERM_MESSAGES, MAX_TURNS] at h2c hltc ⊢
      omega
    rw [step_no_summarize_no_trunc v so ro r m hlt hcap]
    refine ⟨?_, ?_, ?_⟩
    · show (0 : Int) ≤ r.turn_count + 1
      omega
    · show r.turn_count + 1 ≤ (MAX_TURNS : Int)
      omega
    · show ((r.history ++ [(Msg.mk "user" m), (Msg.mk "assistant" (callGeminiApi ro))]).length : Int)
        ≤ 2 * (r.turn_count + 1)
      simp only [List.length_append, List.length_cons, List.length_nil]
      push_cast
      omega

/-- Helper: every loadable record satisfies the invariant. -/
theorem reachableMemory_inv (r : MemoryRecord) (h : ReachableMemory r) : MemInv r := by
  induction h with
  | init uid => exact ⟨by norm_num [initialMemory], by norm_num [initialMemory, MAX_TURNS],
      by norm_num [initialMemory]⟩
  | exchange v so ro m hr ih => exact memInv_step v so ro _ m ih
  | decodeDrop hr ih =>
    obtain ⟨a, b, c⟩ := ih
    exact ⟨a, b, by simpa using by omega⟩

/-- C10: every loadable record has `0 ≤ turn_count ≤ MAX_TURNS`; an exchange
starting at or above the threshold resets before incrementing (ending at 1)
and any other exchange increments by exactly 1, so the persisted
`turn_count` lands in `[1, MAX_TURNS]`; consequently the hard-cap branch
never drops an entry — the persisted log is exactly the branch window plus
the two new turns. -/
theorem turn_count_bounded (r : MemoryRecord) (hr : ReachableMemory r)
    (v : String) (so ro : ApiOutcome) (m : String) :
    (0 ≤ r.turn_count ∧ r.turn_count ≤ (MAX_TURNS : Int))
    ∧ (1 ≤ (generate_response v so ro r m).record.turn_count
        ∧ (generate_response v so ro r m).record.turn_count ≤ (MAX_TURNS : Int))
    ∧ ((MAX_TURNS : Int) ≤ r.turn_count → (generate_response v so ro r m).record.turn_count = 1)
    ∧ (r.turn_count < (MAX_TURNS : Int) →
        (generate_response v so ro r m).record.turn_count = r.turn_count + 1)
    ∧ (generate_response v so ro r m).record.history
        = (if (MAX_TURNS : Int) ≤ r.turn_count then ([] : List Msg) else r.history)
          ++ [(Msg.mk "user" m), (Msg.mk "assistant" (callGeminiApi ro))] := by
  obtain ⟨h0, h1, h2⟩ := reachableMemory_inv r hr
  by_cases hc : (MAX_TURNS : Int) ≤ r.turn_count
  · rw [step_summarize v so ro r m hc]
    refine ⟨⟨h0, h1⟩, ⟨by norm_num, by norm_num [MAX_TURNS]⟩,
      fun _ => rfl, fun hlt => absurd hc (not_le.mpr hlt),
      by simp [hc]⟩
  · have hlt : r.turn_count < (MAX_TURNS : Int) := not_le.mp hc
    have hcap : r.history.length + 2 ≤ MAX_SHORT_TERM_MESSAGES := by
      have h2c := h2
      have hltc := hlt
      simp only [MAX_SHORT_TERM_MESSAGES, MAX_TURNS] at h2c hltc ⊢
      omega
    rw [step_no_summarize_no_trunc v so ro r m hlt hcap]
    refine ⟨⟨h0, h1⟩,
      ⟨by show (1 : Int) ≤ r.turn_count + 1; omega,
       by show r.turn_count + 1 ≤ (MAX_TURNS : Int); omega⟩,
      fun hge => absurd hge hc, fun _ => rfl, by simp [hc]⟩

/-- C10 witness: the fresh record and one concrete exchange from it. -/
theorem turn_count_bounded_witness :
    (0 ≤ (initialMemory "u1").turn_count
      ∧ (initialMemory "u1").turn_count ≤ (MAX_TURNS : Int))
    ∧ (1 ≤ (generate_response "2.0" (ApiOutcome.success "s") (ApiOutcome.success "r")
            (initialMemory "u1") "hi").record.turn_count
      ∧ (generate_response "2.0" (ApiOutcome.success "s") (ApiOutcome.success "r")
            (initialMemory "u1") "hi").record.turn_count ≤ (MAX_TURNS : Int)) :=
  have h := turn_count_bounded (initialMemory "u1") (ReachableMemory.init "u1")
    "2.0" (ApiOutcome.success "s") (ApiOutcome.success "r") "hi"
  ⟨h.1, h.2.1⟩
